import Mathlib

/-!
Verification of the `dm_icebergsink` ingestion core (src/src/main.rs).

The Rust program reads an XML file through a forward-only event reader
(quick-xml), assembles `SdRecord` values from `sdl`/`sd` elements, and
transposes the records into a ten-column Arrow `RecordBatch`.

Shallow embedding: the event stream produced by the reader is the input.
Each constructor of `Event` mirrors one quick-xml `Event` variant that the
Rust `match` in `parse_sd_file` can observe:
  - `start` for `Event::Start` (attribute entries are `Option Attr`,
    `none` standing for an entry on which the attribute iterator itself
    errored — `attributes().flatten()` silently drops those);
  - `emptyElem` for `Event::Empty` (self-closing tags), which falls into
    the catch-all `_ => ` arm;
  - `text` for `Event::Text` (content as a string; the code re-trims it);
  - `endElem` for `Event::End`;
  - `eof` for `Event::Eof`;
  - `err` for the `Err(e)` arm of `read_event_into`;
  - `other` for the remaining variants (comments, CData, declarations,
    processing instructions, doctypes), all caught by `_ => `.

Machine integers: `ts` is i64, `rssi` and `snr` are i32; they are modelled
as `Int` with the explicit range checks that `str::parse` performs, so no
overflow can hide. Bytes are `Nat` (each below 256 by construction of the
hex decoder). The never-populated optional fields keep their Rust types
(`Option Float`, `Option Int`); no floating-point computation occurs.
-/

/-- One parsed record, mirroring the Rust struct `SdRecord`. -/
structure SdRecord where
  device_id : String
  ts : Int
  rssi : Int
  snr : Int
  phy : String
  frame_type : String
  payload : List Nat
  mioty_qi_1 : Option Float
  mioty_qi_2 : Option Int
  mioty_qi_3 : Option Int

/-- Mirrors `new_sd_record()`: the zeroed/default record. -/
def new_sd_record : SdRecord where
  device_id := ""
  ts := 0
  rssi := 0
  snr := 0
  phy := ""
  frame_type := ""
  payload := []
  mioty_qi_1 := none
  mioty_qi_2 := none
  mioty_qi_3 := none

deriving instance DecidableEq for Except

/-- One successfully iterated attribute entry: its key, and the result of
`unescape_value()` (which the Rust code may still fail on). -/
structure Attr where
  key : String
  unescaped : Except String String
deriving DecidableEq

/-- The quick-xml events observable by the `match` in `parse_sd_file`. -/
inductive Event where
  | start (name : String) (attrs : List (Option Attr))
  | emptyElem (name : String) (attrs : List (Option Attr))
  | text (content : String)
  | endElem (name : String)
  | eof
  | err (msg : String)
  | other
deriving DecidableEq

/-- Errors of the parse, tagged by the code site that produced them (every
site maps to `ErrorKind::DataInvalid` in Rust; the constructor records
which abstract error of the design taxonomy the site realises). -/
inductive ParseError where
  | unescapeError (msg : String)
  | fieldParseError (field raw cause : String)
  | invalidEncoding (msg : String)
  | malformedInput (msg : String)
deriving DecidableEq

/-! ### Numeric attribute parsing (Rust `str::parse` for i64 / i32) -/

/-- The digit-accumulation loop of Rust `from_str_radix` (radix 10), with
the per-step overflow check against the bounds of the target type. -/
def parseIntLoop (lo hi : Int) (neg : Bool) : List Char → Int → Except String Int
  | [], acc => .ok acc
  | c :: rest, acc =>
    if '0' ≤ c ∧ c ≤ '9' then
      let d : Int := c.toNat - 48
      let acc1 := if neg then acc * 10 - d else acc * 10 + d
      if acc1 < lo then .error "number too small to fit in target type"
      else if hi < acc1 then .error "number too large to fit in target type"
      else parseIntLoop lo hi neg rest acc1
    else .error "invalid digit found in string"

/-- Rust `str::parse` into a signed integer type with range `[lo, hi]`:
optional sign, at least one digit, all decimal digits, value in range. -/
def parseIntRange (lo hi : Int) (s : String) : Except String Int :=
  match s.data with
  | [] => .error "cannot parse integer from empty string"
  | [c] =>
    if c = '+' ∨ c = '-' then .error "invalid digit found in string"
    else parseIntLoop lo hi false [c] 0
  | c :: rest =>
    if c = '+' then parseIntLoop lo hi false rest 0
    else if c = '-' then parseIntLoop lo hi true rest 0
    else parseIntLoop lo hi false (c :: rest) 0

/-- `val.parse::<i64>()`. -/
def parseI64 (s : String) : Except String Int :=
  parseIntRange (-(2 ^ 63)) (2 ^ 63 - 1) s

/-- `val.parse::<i32>()`. -/
def parseI32 (s : String) : Except String Int :=
  parseIntRange (-(2 ^ 31)) (2 ^ 31 - 1) s

/-! ### Hex codec (`Vec::from_hex` of the hex crate) -/

/-- Value of one hexadecimal digit, case-insensitive. -/
def hexVal (c : Char) : Option Nat :=
  if '0' ≤ c ∧ c ≤ '9' then some (c.toNat - 48)
  else if 'a' ≤ c ∧ c ≤ 'f' then some (c.toNat - 87)
  else if 'A' ≤ c ∧ c ≤ 'F' then some (c.toNat - 55)
  else none

/-- Decode consecutive digit pairs; `none` on the first non-hex character. -/
def hexPairs : List Char → Option (List Nat)
  | [] => some []
  | [_] => none
  | a :: b :: rest =>
    match hexVal a, hexVal b with
    | some x, some y => (hexPairs rest).map (fun t => (16 * x + y) :: t)
    | _, _ => none

/-- `Vec::from_hex(text)`: rejects odd length first, then any non-hex
character; otherwise yields the decoded bytes. -/
def fromHex (t : String) : Except ParseError (List Nat) :=
  if t.length % 2 = 1 then .error (.invalidEncoding "Odd number of digits")
  else
    match hexPairs t.data with
    | some bs => .ok bs
    | none => .error (.invalidEncoding "Invalid character")

/-! ### Text trimming (Rust `str::trim`) -/

/-- The Unicode White_Space set recognised by Rust `char::is_whitespace`:
ASCII whitespace plus NEL (U+0085), NBSP (U+00A0), the Ogham space mark
(U+1680), the general-punctuation spaces (U+2000 to U+200A), the line and
paragraph separators (U+2028, U+2029), the narrow and medium mathematical
spaces (U+202F, U+205F), and the ideographic space (U+3000). All of these
can reach `.trim()`, since the quick-xml reader trims only ASCII
whitespace off text events. -/
def isWs (c : Char) : Bool :=
  c = ' ' ∨ c = '\t' ∨ c = '\n' ∨ c = '\r' ∨ c = '\x0b' ∨ c = '\x0c' ∨
  c.toNat = 0x85 ∨ c.toNat = 0xa0 ∨ c.toNat = 0x1680 ∨
  (0x2000 ≤ c.toNat ∧ c.toNat ≤ 0x200a) ∨ c.toNat = 0x2028 ∨ c.toNat = 0x2029 ∨
  c.toNat = 0x202f ∨ c.toNat = 0x205f ∨ c.toNat = 0x3000

/-- Drop leading and trailing whitespace characters. -/
def trimChars (cs : List Char) : List Char :=
  ((cs.dropWhile isWs).reverse.dropWhile isWs).reverse

/-- `text.trim()` on the decoded text content. -/
def rustTrim (s : String) : String :=
  ⟨trimChars s.data⟩

/-! ### Attribute scans of the two element kinds -/

/-- The `b"sdl"` arm: walk the flattened attribute entries; on each entry
keyed `deviceId`, unescape (failing the parse on an unescape error) and
overwrite the current device. Other keys are untouched and not unescaped. -/
def scanSdlAttrs : List (Option Attr) → String → Except ParseError String
  | [], cur => .ok cur
  | none :: rest, cur => scanSdlAttrs rest cur
  | some a :: rest, cur =>
    if a.key = "deviceId" then
      match a.unescaped with
      | .ok v => scanSdlAttrs rest v
      | .error m => .error (.unescapeError m)
    else scanSdlAttrs rest cur

/-- Dispatch of one unescaped `sd` attribute by key: `ts`, `rssi`, `snr`
parse as decimal integers of their width, `phy` and `type` are taken
verbatim, unknown keys are ignored. -/
def applySdAttr (r : SdRecord) (key v : String) : Except ParseError SdRecord :=
  match key with
  | "ts" =>
    match parseI64 v with
    | .ok n => .ok { r with ts := n }
    | .error c => .error (.fieldParseError "ts" v c)
  | "rssi" =>
    match parseI32 v with
    | .ok n => .ok { r with rssi := n }
    | .error c => .error (.fieldParseError "rssi" v c)
  | "snr" =>
    match parseI32 v with
    | .ok n => .ok { r with snr := n }
    | .error c => .error (.fieldParseError "snr" v c)
  | "phy" => .ok { r with phy := v }
  | "type" => .ok { r with frame_type := v }
  | _ => .ok r

/-- The `b"sd"` arm: walk the flattened attribute entries; every entry is
unescaped first (failing the parse on an unescape error), then dispatched
by key. -/
def scanSdAttrs : List (Option Attr) → SdRecord → Except ParseError SdRecord
  | [], r => .ok r
  | none :: rest, r => scanSdAttrs rest r
  | some a :: rest, r =>
    match a.unescaped with
    | .error m => .error (.unescapeError m)
    | .ok v =>
      match applySdAttr r a.key v with
      | .ok r1 => scanSdAttrs rest r1
      | .error e => .error e

/-! ### The event loop of `parse_sd_file` -/

/-- The mutable locals of the Rust loop: `records`, `current_device`,
`current_sd`. -/
structure ParseState where
  records : List SdRecord
  current_device : String
  current_sd : SdRecord

/-- Result of handling one event. -/
inductive StepResult where
  | cont (st : ParseState)
  | done (records : List SdRecord)
  | fail (e : ParseError)

/-- One iteration of the `loop` body of `parse_sd_file`. -/
def step (st : ParseState) (ev : Event) : StepResult :=
  match ev with
  | .start name attrs =>
    if name = "sdl" then
      match scanSdlAttrs attrs st.current_device with
      | .ok d => .cont { st with current_device := d }
      | .error e => .fail e
    else if name = "sd" then
      match scanSdAttrs attrs st.current_sd with
      | .ok r => .cont { st with current_sd := r }
      | .error e => .fail e
    else .cont st
  | .text content =>
    let t := rustTrim content
    if t = "" then .cont st
    else
      match fromHex t with
      | .ok bs => .cont { st with current_sd := { st.current_sd with payload := bs } }
      | .error e => .fail e
  | .endElem name =>
    if name = "sd" then
      .cont { st with
        records := st.records ++ [{ st.current_sd with device_id := st.current_device }],
        current_sd := new_sd_record }
    else .cont st
  | .eof => .done st.records
  | .err msg => .fail (.malformedInput ("XML parse error: " ++ msg))
  | .emptyElem _ _ => .cont st
  | .other => .cont st

/-- Run the loop over the event stream. -/
def parse_sd_events : ParseState → List Event → Except ParseError (List SdRecord)
  | st, [] => .ok st.records
  | st, ev :: evs =>
    match step st ev with
    | .cont st1 => parse_sd_events st1 evs
    | .done recs => .ok recs
    | .fail e => .error e

/-- The initial state of the locals in `parse_sd_file`. -/
def initState : ParseState where
  records := []
  current_device := ""
  current_sd := new_sd_record

/-- `parse_sd_file`, as a function of the event stream the reader yields. -/
def parse_sd_file (evs : List Event) : Except ParseError (List SdRecord) :=
  parse_sd_events initState evs

/-! ### The Arrow record batch (`build_recordbatch`)

Columns are modelled as lists of optional primitive values: `none` is a
null slot, kept distinct by construction from every in-domain value. -/

/-- A non-null primitive cell value of one of the Arrow types used. -/
inductive Prim where
  | pstr (s : String)
  | pi64 (n : Int)
  | pi32 (n : Int)
  | pbin (b : List Nat)
  | pf64 (x : Float)

/-- The Arrow data types appearing in the fixed schema. -/
inductive DataTypeM where
  | utf8
  | int64
  | int32
  | binary
  | float64
deriving DecidableEq

/-- One schema field: `Field::new(name, data_type, nullable)`. -/
structure FieldM where
  name : String
  dtype : DataTypeM
  nullable : Bool

/-- A column: one optional cell per row. -/
abbrev ColumnM := List (Option Prim)

/-- Does a cell value have the given Arrow type? -/
def typeOk : Prim → DataTypeM → Bool
  | .pstr _, .utf8 => true
  | .pi64 _, .int64 => true
  | .pi32 _, .int32 => true
  | .pbin _, .binary => true
  | .pf64 _, .float64 => true
  | _, _ => false

/-- Every cell of the column fits the field: nulls only when nullable,
values only of the declared type. -/
def columnOk (f : FieldM) (c : ColumnM) : Bool :=
  c.all fun v =>
    match v with
    | none => f.nullable
    | some p => typeOk p f.dtype

/-- A built record batch. -/
structure RecordBatchM where
  schema : List FieldM
  columns : List ColumnM

/-- `batch.num_rows()`: the length of the first column. -/
def RecordBatchM.num_rows (b : RecordBatchM) : Nat :=
  (b.columns.headD []).length

/-- `RecordBatch::try_new`: checks column count against the schema, equal
column lengths, and per-field null/type validity. -/
def RecordBatch.try_new (schema : List FieldM) (columns : List ColumnM) :
    Except String RecordBatchM :=
  if columns.length = schema.length then
    if columns.all fun c => c.length = (columns.headD []).length then
      if (schema.zip columns).all fun fc => columnOk fc.1 fc.2 then
        .ok ⟨schema, columns⟩
      else .error "column types must match schema types"
    else .error "all columns in a record batch must have the same length"
  else .error "number of columns must match number of fields"

/-- The fixed ten-field schema built at the top of `build_recordbatch`. -/
def arrowSchema : List FieldM :=
  [⟨"device_id", .utf8, false⟩,
   ⟨"ts", .int64, false⟩,
   ⟨"rssi", .int32, false⟩,
   ⟨"snr", .int32, false⟩,
   ⟨"phy", .utf8, false⟩,
   ⟨"frame_type", .utf8, false⟩,
   ⟨"payload", .binary, false⟩,
   ⟨"mioty_qi_1", .float64, true⟩,
   ⟨"mioty_qi_2", .int32, true⟩,
   ⟨"mioty_qi_3", .int32, true⟩]

/-- The column vector handed to `RecordBatch::try_new`: one column per
field, each a map over the records; the three optional fields become
nullable columns with a null wherever the record holds no value. -/
def batchColumns (records : List SdRecord) : List ColumnM :=
  [records.map fun r => some (.pstr r.device_id),
   records.map fun r => some (.pi64 r.ts),
   records.map fun r => some (.pi32 r.rssi),
   records.map fun r => some (.pi32 r.snr),
   records.map fun r => some (.pstr r.phy),
   records.map fun r => some (.pstr r.frame_type),
   records.map fun r => some (.pbin r.payload),
   records.map fun r => r.mioty_qi_1.map .pf64,
   records.map fun r => r.mioty_qi_2.map .pi32,
   records.map fun r => r.mioty_qi_3.map .pi32]

/-- `build_recordbatch`. -/
def build_recordbatch (records : List SdRecord) : Except String RecordBatchM :=
  RecordBatch.try_new arrowSchema (batchColumns records)

/-- Cell of column `i` at row `j` (`none` when out of bounds, `some none`
for a null slot, `some (some p)` for value `p`). -/
def RecordBatchM.cell (b : RecordBatchM) (i j : Nat) : Option (Option Prim) :=
  (b.columns.getD i [])[j]?

/-! ### The post-parse decision in `main` -/

/-- The observable outcomes of `main` after the parse: the dedicated
no-records message, a successful batch with its row count, a parse
failure, or a batch-construction failure. -/
inductive MainOutcome where
  | noRecords
  | success (rows : Nat)
  | failure (e : ParseError)
  | batchError (msg : String)
deriving DecidableEq

/-- The tail of `main`: parse, return the distinct no-records outcome on an
empty record list before ever building a batch, otherwise build and report
the row count. -/
def mainPipeline (evs : List Event) : MainOutcome :=
  match parse_sd_file evs with
  | .error e => .failure e
  | .ok records =>
    if records.isEmpty then .noRecords
    else
      match build_recordbatch records with
      | .ok batch => .success batch.num_rows
      | .error m => .batchError m

/-! ### Spec-side definitions

These follow the wording of the specification, to be compared with the
embedded code. -/

/-- Spec wording: the identifier attribute value of an outer element is
the last `deviceId` attribute among its (successfully iterated and
unescaped) attributes; with none present the previous identifier stays. -/
def specLastOuterId (cur : String) (attrs : List (Option Attr)) : String :=
  (attrs.filterMap id).foldl
    (fun acc a =>
      if a.key = "deviceId" then
        match a.unescaped with
        | .ok v => v
        | .error _ => acc
      else acc)
    cur

/-- Spec wording: walking the event stream with exactly one active outer
identifier (initially the given one, overwritten on each outer open),
record the active identifier at each inner-record closing tag. -/
def expectedDeviceIds (cur : String) : List Event → List String
  | [] => []
  | .start name attrs :: evs =>
    if name = "sdl" then expectedDeviceIds (specLastOuterId cur attrs) evs
    else expectedDeviceIds cur evs
  | .endElem name :: evs =>
    if name = "sd" then cur :: expectedDeviceIds cur evs
    else expectedDeviceIds cur evs
  | .eof :: _ => []
  | .err _ :: _ => []
  | .text _ :: evs => expectedDeviceIds cur evs
  | .emptyElem _ _ :: evs => expectedDeviceIds cur evs
  | .other :: evs => expectedDeviceIds cur evs

/-- The number of inner-record closing tags encountered before the end of
the stream. -/
def countSdEnds : List Event → Nat
  | [] => 0
  | .eof :: _ => 0
  | .endElem name :: evs => (if name = "sd" then 1 else 0) + countSdEnds evs
  | _ :: evs => countSdEnds evs

/-- Spec wording: a hexadecimal digit, case-insensitive. -/
def isHexDigitC (c : Char) : Bool :=
  ('0' ≤ c ∧ c ≤ '9') ∨ ('a' ≤ c ∧ c ≤ 'f') ∨ ('A' ≤ c ∧ c ≤ 'F')

/-- Spec wording: a valid payload text has even length and consists only
of hexadecimal digits. -/
def specValidHex (t : String) : Bool :=
  t.length % 2 = 0 && t.data.all isHexDigitC

/-- Numeric value of a hexadecimal digit (junk value 0 off the domain). -/
def hexDigitVal (c : Char) : Nat :=
  (hexVal c).getD 0

/-- Spec wording: decode a hexadecimal string two digits per byte. -/
def specHexDecode : List Char → List Nat
  | a :: b :: rest => (16 * hexDigitVal a + hexDigitVal b) :: specHexDecode rest
  | _ => []

/-! ### Concrete inputs used to evaluate the theorems -/

/-- Two outer elements, each wrapping one record. -/
def wEvsTwoOuter : List Event :=
  [Event.start "sdl" [some ⟨"deviceId", Except.ok "A"⟩], Event.start "sd" [],
   Event.endElem "sd", Event.endElem "sdl",
   Event.start "sdl" [some ⟨"deviceId", Except.ok "B"⟩], Event.start "sd" [],
   Event.endElem "sd", Event.eof]

/-- The records the two-outer stream parses to. -/
def wRecsTwoOuter : List SdRecord :=
  [{ new_sd_record with device_id := "A" }, { new_sd_record with device_id := "B" }]

/-- One record plus a closing tag of another element. -/
def wEvsOneRecord : List Event :=
  [Event.start "sd" [], Event.endElem "sd", Event.endElem "sdl", Event.eof]

/-- A well-formed record, followed by a reader error. -/
def wEvsBeforeErr : List Event :=
  [Event.start "sdl" [some ⟨"deviceId", Except.ok "X"⟩], Event.start "sd" [],
   Event.endElem "sd"]

/-- The state reached after `wEvsBeforeErr`: one record already assembled. -/
def wStBeforeErr : ParseState where
  records := [{ new_sd_record with device_id := "X" }]
  current_device := "X"
  current_sd := new_sd_record

/-- The first row of the end-to-end scenario of the specification. -/
def wRecRow0 : SdRecord where
  device_id := "X"
  ts := 1
  rssi := -10
  snr := 5
  phy := "A"
  frame_type := "up"
  payload := [171]
  mioty_qi_1 := none
  mioty_qi_2 := none
  mioty_qi_3 := none

/-! ### Running a prefix of the stream -/

/-- Run the loop over a prefix of the stream, returning the reached state
as long as no iteration terminated or failed. -/
def runEvents : ParseState → List Event → Option ParseState
  | st, [] => some st
  | st, ev :: evs =>
    match step st ev with
    | .cont st1 => runEvents st1 evs
    | _ => none

theorem parse_sd_events_append (evs1 : List Event) :
    ∀ (st st1 : ParseState), runEvents st evs1 = some st1 →
      ∀ evs2, parse_sd_events st (evs1 ++ evs2) = parse_sd_events st1 evs2 := by
  induction evs1 with
  | nil =>
    intro st st1 h evs2
    simp only [runEvents] at h
    cases h
    rfl
  | cons ev evs ih =>
    intro st st1 h evs2
    simp only [runEvents] at h
    cases hstep : step st ev with
    | cont st2 =>
      rw [hstep] at h
      simpa only [List.cons_append, parse_sd_events, hstep] using ih st2 st1 h evs2
    | done recs => rw [hstep] at h; cases h
    | fail e => rw [hstep] at h; cases h

/-! ### Step lemmas -/

theorem step_start_sdl (st : ParseState) (attrs : List (Option Attr)) :
    step st (.start "sdl" attrs) =
      match scanSdlAttrs attrs st.current_device with
      | .ok d => .cont { st with current_device := d }
      | .error e => .fail e := rfl

theorem step_start_sd (st : ParseState) (attrs : List (Option Attr)) :
    step st (.start "sd" attrs) =
      match scanSdAttrs attrs st.current_sd with
      | .ok r => .cont { st with current_sd := r }
      | .error e => .fail e := rfl

theorem step_start_other (st : ParseState) (name : String) (attrs : List (Option Attr))
    (h1 : name ≠ "sdl") (h2 : name ≠ "sd") :
    step st (.start name attrs) = .cont st := by
  simp [step, h1, h2]

theorem step_end_sd (st : ParseState) :
    step st (.endElem "sd") =
      .cont { st with
        records := st.records ++ [{ st.current_sd with device_id := st.current_device }],
        current_sd := new_sd_record } := rfl

theorem step_end_other (st : ParseState) (name : String) (h : name ≠ "sd") :
    step st (.endElem name) = .cont st := by
  simp [step, h]

theorem step_text_empty (st : ParseState) (content : String) (h : rustTrim content = "") :
    step st (.text content) = .cont st := by
  simp [step, h]

theorem step_text_nonempty (st : ParseState) (content : String)
    (h : rustTrim content ≠ "") :
    step st (.text content) =
      match fromHex (rustTrim content) with
      | .ok bs => .cont { st with current_sd := { st.current_sd with payload := bs } }
      | .error e => .fail e := by
  simp [step, h]

/-! ### The outer-identifier scan agrees with the spec-side fold -/

theorem specLastOuterId_nil (cur : String) : specLastOuterId cur [] = cur := rfl

theorem specLastOuterId_none (cur : String) (rest : List (Option Attr)) :
    specLastOuterId cur (none :: rest) = specLastOuterId cur rest := rfl

theorem specLastOuterId_some (cur : String) (a : Attr) (rest : List (Option Attr)) :
    specLastOuterId cur (some a :: rest) =
      specLastOuterId
        (if a.key = "deviceId" then
          match a.unescaped with
          | .ok v => v
          | .error _ => cur
        else cur)
        rest := rfl

theorem scanSdlAttrs_ok (attrs : List (Option Attr)) :
    ∀ cur d, scanSdlAttrs attrs cur = .ok d → specLastOuterId cur attrs = d := by
  induction attrs with
  | nil =>
    intro cur d h
    simp only [scanSdlAttrs] at h
    cases h
    rfl
  | cons a rest ih =>
    intro cur d h
    cases a with
    | none =>
      simp only [scanSdlAttrs] at h
      rw [specLastOuterId_none]
      exact ih cur d h
    | some a =>
      simp only [scanSdlAttrs] at h
      rw [specLastOuterId_some]
      by_cases hk : a.key = "deviceId"
      · rw [if_pos hk] at h ⊢
        cases hu : a.unescaped with
        | ok v => rw [hu] at h; exact ih v d h
        | error m => rw [hu] at h; cases h
      · rw [if_neg hk] at h ⊢
        exact ih cur d h

/-! ### Fold invariants for device ids and row counts -/

theorem parse_ids_aux (evs : List Event) :
    ∀ st recs, parse_sd_events st evs = .ok recs →
      recs.map SdRecord.device_id =
        st.records.map SdRecord.device_id ++ expectedDeviceIds st.current_device evs := by
  induction evs with
  | nil =>
    intro st recs h
    simp only [parse_sd_events] at h
    cases h
    simp [expectedDeviceIds]
  | cons ev evs ih =>
    intro st recs h
    simp only [parse_sd_events] at h
    cases ev with
    | start name attrs =>
      by_cases hsdl : name = "sdl"
      · subst hsdl
        rw [step_start_sdl] at h
        cases hscan : scanSdlAttrs attrs st.current_device with
        | ok d =>
          rw [hscan] at h
          rw [ih _ _ h]
          simp [expectedDeviceIds, scanSdlAttrs_ok attrs _ _ hscan]
        | error e => rw [hscan] at h; cases h
      · by_cases hsd : name = "sd"
        · subst hsd
          rw [step_start_sd] at h
          cases hscan : scanSdAttrs attrs st.current_sd with
          | ok r =>
            rw [hscan] at h
            rw [ih _ _ h]
            simp [expectedDeviceIds, hsdl]
          | error e => rw [hscan] at h; cases h
        · rw [step_start_other st name attrs hsdl hsd] at h
          rw [ih _ _ h]
          simp [expectedDeviceIds, hsdl, hsd]
    | text content =>
      by_cases ht : rustTrim content = ""
      · rw [step_text_empty st content ht] at h
        rw [ih _ _ h]
        simp [expectedDeviceIds]
      · rw [step_text_nonempty st content ht] at h
        cases hx : fromHex (rustTrim content) with
        | ok bs =>
          rw [hx] at h
          rw [ih _ _ h]
          simp [expectedDeviceIds]
        | error e => rw [hx] at h; cases h
    | endElem name =>
      by_cases hsd : name = "sd"
      · subst hsd
        rw [step_end_sd] at h
        rw [ih _ _ h]
        simp [expectedDeviceIds]
      · rw [step_end_other st name hsd] at h
        rw [ih _ _ h]
        simp [expectedDeviceIds, hsd]
    | eof =>
      cases h
      simp [expectedDeviceIds]
    | err msg => cases h
    | emptyElem name attrs =>
      rw [show step st (.emptyElem name attrs) = .cont st from rfl] at h
      rw [ih _ _ h]
      simp [expectedDeviceIds]
    | other =>
      rw [show step st Event.other = .cont st from rfl] at h
      rw [ih _ _ h]
      simp [expectedDeviceIds]

theorem parse_count_aux (evs : List Event) :
    ∀ st recs, parse_sd_events st evs = .ok recs →
      recs.length = st.records.length + countSdEnds evs := by
  induction evs with
  | nil =>
    intro st recs h
    simp only [parse_sd_events] at h
    cases h
    simp [countSdEnds]
  | cons ev evs ih =>
    intro st recs h
    simp only [parse_sd_events] at h
    cases ev with
    | start name attrs =>
      by_cases hsdl : name = "sdl"
      · subst hsdl
        rw [step_start_sdl] at h
        cases hscan : scanSdlAttrs attrs st.current_device with
        | ok d =>
          rw [hscan] at h
          rw [ih _ _ h]
          simp [countSdEnds]
        | error e => rw [hscan] at h; cases h
      · by_cases hsd : name = "sd"
        · subst hsd
          rw [step_start_sd] at h
          cases hscan : scanSdAttrs attrs st.current_sd with
          | ok r =>
            rw [hscan] at h
            rw [ih _ _ h]
            simp [countSdEnds]
          | error e => rw [hscan] at h; cases h
        · rw [step_start_other st name attrs hsdl hsd] at h
          rw [ih _ _ h]
          simp [countSdEnds]
    | text content =>
      by_cases ht : rustTrim content = ""
      · rw [step_text_empty st content ht] at h
        rw [ih _ _ h]
        simp [countSdEnds]
      · rw [step_text_nonempty st content ht] at h
        cases hx : fromHex (rustTrim content) with
        | ok bs =>
          rw [hx] at h
          rw [ih _ _ h]
          simp [countSdEnds]
        | error e => rw [hx] at h; cases h
    | endElem name =>
      by_cases hsd : name = "sd"
      · subst hsd
        rw [step_end_sd] at h
        rw [ih _ _ h]
        simp [countSdEnds]
        omega
      · rw [step_end_other st name hsd] at h
        rw [ih _ _ h]
        simp [countSdEnds, hsd]
    | eof =>
      cases h
      simp [countSdEnds]
    | err msg => cases h
    | emptyElem name attrs =>
      rw [show step st (.emptyElem name attrs) = .cont st from rfl] at h
      rw [ih _ _ h]
      simp [countSdEnds]
    | other =>
      rw [show step st Event.other = .cont st from rfl] at h
      rw [ih _ _ h]
      simp [countSdEnds]


/-! ### Claim C1: records inherit the active outer identifier -/

/-- C1: for every well-formed input (a stream the parse accepts), the
device ids of the emitted records are exactly the active outer identifier
at each inner-record closing tag, where the single active identifier
starts empty and is overwritten on each outer-element open from its
`deviceId` attribute. -/
theorem parse_device_id_invariant (evs : List Event) (recs : List SdRecord)
    (h : parse_sd_file evs = .ok recs) :
    recs.map SdRecord.device_id = expectedDeviceIds "" evs := by
  have hx := parse_ids_aux evs initState recs h
  simpa [initState, new_sd_record] using hx

/-- Witness for C1 on the two-outer-element stream. -/
theorem parse_device_id_invariant_witness :
    parse_sd_file wEvsTwoOuter = .ok wRecsTwoOuter ∧
    wRecsTwoOuter.map SdRecord.device_id = expectedDeviceIds "" wEvsTwoOuter :=
  ⟨rfl, parse_device_id_invariant wEvsTwoOuter wRecsTwoOuter rfl⟩

/-! ### Claim C2: row count equals the number of inner closing tags -/

/-- C2: for every well-formed input, the number of records returned by the
parse equals the number of `sd` closing tags encountered before the end of
the stream. -/
theorem parse_row_count (evs : List Event) (recs : List SdRecord)
    (h : parse_sd_file evs = .ok recs) :
    recs.length = countSdEnds evs := by
  have hx := parse_count_aux evs initState recs h
  simpa [initState] using hx

/-- Witness for C2 on a one-record stream with an unrelated closing tag. -/
theorem parse_row_count_witness :
    parse_sd_file wEvsOneRecord = .ok [{ new_sd_record with device_id := "" }] ∧
    [{ new_sd_record with device_id := "" }].length = countSdEnds wEvsOneRecord :=
  ⟨rfl, parse_row_count wEvsOneRecord _ rfl⟩

/-! ### Claim C6: malformed markup aborts with no rows -/

/-- C6: a reader error anywhere in the stream makes the whole parse fail
with the malformed-input error carrying the diagnostic, returning no rows
regardless of the records assembled before it. -/
theorem parse_malformed_aborts (evs1 evs2 : List Event) (st : ParseState) (msg : String)
    (hpre : runEvents initState evs1 = some st) :
    parse_sd_file (evs1 ++ .err msg :: evs2) =
      .error (.malformedInput ("XML parse error: " ++ msg)) := by
  unfold parse_sd_file
  rw [parse_sd_events_append evs1 initState st hpre]
  rfl

/-- Witness for C6: a fully well-formed record precedes the error. -/
theorem parse_malformed_aborts_witness :
    runEvents initState wEvsBeforeErr = some wStBeforeErr ∧
    wStBeforeErr.records ≠ [] ∧
    parse_sd_file (wEvsBeforeErr ++ .err "mismatched closing tag" :: []) =
      .error (.malformedInput ("XML parse error: " ++ "mismatched closing tag")) :=
  ⟨rfl, by simp [wStBeforeErr],
   parse_malformed_aborts wEvsBeforeErr [] wStBeforeErr "mismatched closing tag" rfl⟩

/-! ### Claim C8: the empty well-formed input is a distinct non-error outcome -/

/-- C8: when the parse succeeds with zero records, `main` takes the
dedicated no-records exit and the batch builder is never invoked (the
pipeline outcome is `noRecords`, not a `success` or `batchError` of the
builder). -/
theorem no_records_outcome (evs : List Event) (h : parse_sd_file evs = .ok []) :
    mainPipeline evs = .noRecords := by
  simp [mainPipeline, h]

/-- Witness for C8 on the empty well-formed stream. -/
theorem no_records_outcome_witness :
    parse_sd_file [Event.eof] = .ok [] ∧ mainPipeline [Event.eof] = .noRecords :=
  ⟨rfl, no_records_outcome [Event.eof] rfl⟩

/-! ### Claim C9: self-closing inner elements emit nothing -/

/-- C9: an empty-element event (a self-closing tag such as an `sd` with
attributes) falls into the catch-all arm: the state is unchanged, so no
record is emitted and all its attributes are ignored. -/
theorem empty_element_ignored (st : ParseState) (name : String)
    (attrs : List (Option Attr)) (evs : List Event) :
    step st (.emptyElem name attrs) = .cont st ∧
    parse_sd_events st (.emptyElem name attrs :: evs) = parse_sd_events st evs :=
  ⟨rfl, rfl⟩

/-! ### Claim C5: numeric attribute failures abort the whole parse -/

theorem scanSdAttrs_append_ok (a1 : List (Option Attr)) :
    ∀ r r1, scanSdAttrs a1 r = .ok r1 →
      ∀ a2, scanSdAttrs (a1 ++ a2) r = scanSdAttrs a2 r1 := by
  induction a1 with
  | nil =>
    intro r r1 h a2
    simp only [scanSdAttrs] at h
    cases h
    rfl
  | cons a rest ih =>
    intro r r1 h a2
    cases a with
    | none =>
      simp only [scanSdAttrs] at h
      exact ih r r1 h a2
    | some a =>
      cases hu : a.unescaped with
      | error m =>
        simp only [scanSdAttrs, hu] at h
        cases h
      | ok v =>
        simp only [scanSdAttrs, hu] at h
        cases hap : applySdAttr r a.key v with
        | ok r2 =>
          rw [hap] at h
          have hgoal := ih r2 r1 h a2
          simp only [List.cons_append, scanSdAttrs, hu, hap]
          exact hgoal
        | error e =>
          rw [hap] at h
          cases h

/-- C5: if, while handling an inner-record open tag, the attributes before
a numeric entry — keyed `ts`, `rssi` or `snr` — all succeed and its value
does not parse as a decimal integer of the declared width (64-bit for
`ts`, 32-bit for `rssi` and `snr`), the whole parse fails with a
field-parse error carrying the field name, the raw value and the cause,
and every previously assembled record is discarded (the result carries no
rows at all). -/
theorem parse_numeric_field_error (evs1 evs2 : List Event) (st : ParseState)
    (a1 a2 : List (Option Attr)) (field raw cause : String) (r : SdRecord)
    (hpre : runEvents initState evs1 = some st)
    (h1 : scanSdAttrs a1 st.current_sd = .ok r)
    (hfield :
      (field = "ts" ∧ parseI64 raw = .error cause) ∨
      (field = "rssi" ∧ parseI32 raw = .error cause) ∨
      (field = "snr" ∧ parseI32 raw = .error cause)) :
    parse_sd_file (evs1 ++ .start "sd" (a1 ++ some ⟨field, .ok raw⟩ :: a2) :: evs2) =
      .error (.fieldParseError field raw cause) := by
  unfold parse_sd_file
  rw [parse_sd_events_append evs1 initState st hpre]
  simp only [parse_sd_events, step_start_sd]
  rw [scanSdAttrs_append_ok a1 _ _ h1]
  rcases hfield with ⟨hf, hp⟩ | ⟨hf, hp⟩ | ⟨hf, hp⟩ <;> subst hf <;>
    simp [scanSdAttrs, applySdAttr, hp]

/-- Witness for C5: concrete failures on each of the three numeric fields —
the spec example `ts="abc"`, an out-of-range `rssi`, and a garbage `snr`. -/
theorem parse_numeric_field_error_witness :
    (runEvents initState [] = some initState ∧
     scanSdAttrs [] initState.current_sd = .ok initState.current_sd ∧
     parseI64 "abc" = .error "invalid digit found in string" ∧
     parse_sd_file ([] ++ .start "sd" ([] ++ some ⟨"ts", .ok "abc"⟩ :: []) :: []) =
       .error (.fieldParseError "ts" "abc" "invalid digit found in string")) ∧
    (parseI32 "4000000000" = .error "number too large to fit in target type" ∧
     parse_sd_file
        ([] ++ .start "sd" ([] ++ some ⟨"rssi", .ok "4000000000"⟩ :: []) :: []) =
       .error (.fieldParseError "rssi" "4000000000"
         "number too large to fit in target type")) ∧
    (parseI32 "xyz" = .error "invalid digit found in string" ∧
     parse_sd_file ([] ++ .start "sd" ([] ++ some ⟨"snr", .ok "xyz"⟩ :: []) :: []) =
       .error (.fieldParseError "snr" "xyz" "invalid digit found in string")) :=
  ⟨⟨rfl, rfl, by decide,
    parse_numeric_field_error [] [] initState [] [] "ts" "abc"
      "invalid digit found in string" initState.current_sd rfl rfl
      (Or.inl ⟨rfl, by decide⟩)⟩,
   ⟨by decide,
    parse_numeric_field_error [] [] initState [] [] "rssi" "4000000000"
      "number too large to fit in target type" initState.current_sd rfl rfl
      (Or.inr (Or.inl ⟨rfl, by decide⟩))⟩,
   ⟨by decide,
    parse_numeric_field_error [] [] initState [] [] "snr" "xyz"
      "invalid digit found in string" initState.current_sd rfl rfl
      (Or.inr (Or.inr ⟨rfl, by decide⟩))⟩⟩

/-! ### Claim C7: an outer open without the identifier key changes nothing -/

theorem scanSdlAttrs_no_deviceId (attrs : List (Option Attr)) :
    ∀ cur, (∀ a ∈ attrs.filterMap id, a.key ≠ "deviceId") →
      scanSdlAttrs attrs cur = .ok cur := by
  induction attrs with
  | nil => intro cur _; rfl
  | cons a rest ih =>
    intro cur h
    cases a with
    | none =>
      exact ih cur fun b hb => h b (by simpa using hb)
    | some a =>
      have hk : a.key ≠ "deviceId" := h a (by simp)
      simp only [scanSdlAttrs, if_neg hk]
      exact ih cur fun b hb => h b (by simp [hb])

/-- C7: an outer-container open event whose (successfully iterated)
attributes contain no `deviceId` key leaves the active outer identifier —
indeed the whole parse state — unchanged, so subsequent records inherit
the previously set identifier. -/
theorem sdl_open_without_identifier (st : ParseState) (attrs : List (Option Attr))
    (evs : List Event)
    (h : ∀ a ∈ attrs.filterMap id, a.key ≠ "deviceId") :
    step st (.start "sdl" attrs) = .cont st ∧
    parse_sd_events st (.start "sdl" attrs :: evs) = parse_sd_events st evs := by
  have hs : step st (.start "sdl" attrs) = .cont st := by
    rw [step_start_sdl, scanSdlAttrs_no_deviceId attrs st.current_device h]
  exact ⟨hs, by simp only [parse_sd_events, hs]⟩

/-- Witness for C7: an outer open carrying only an unrelated attribute and
one dropped erroneous entry. -/
theorem sdl_open_without_identifier_witness :
    (∀ a ∈ ([some ⟨"id", Except.ok "Z"⟩, none] : List (Option Attr)).filterMap id,
      a.key ≠ "deviceId") ∧
    (step initState (.start "sdl" [some ⟨"id", Except.ok "Z"⟩, none]) = .cont initState ∧
     parse_sd_events initState
        (.start "sdl" [some ⟨"id", Except.ok "Z"⟩, none] :: [Event.eof]) =
       parse_sd_events initState [Event.eof]) :=
  ⟨by decide, sdl_open_without_identifier initState _ [Event.eof] (by decide)⟩

/-! ### Claim C10: erroneous attribute entries are silently dropped -/

theorem scanSdlAttrs_filterMap (attrs : List (Option Attr)) :
    ∀ cur, scanSdlAttrs ((attrs.filterMap id).map some) cur = scanSdlAttrs attrs cur := by
  induction attrs with
  | nil => intro cur; rfl
  | cons a rest ih =>
    intro cur
    cases a with
    | none => simpa using ih cur
    | some a =>
      simp only [List.filterMap_cons, id_eq, List.map_cons, scanSdlAttrs]
      by_cases hk : a.key = "deviceId"
      · rw [if_pos hk, if_pos hk]
        cases hu : a.unescaped with
        | ok v => exact ih v
        | error m => rfl
      · rw [if_neg hk, if_neg hk]
        exact ih cur

theorem scanSdAttrs_filterMap (attrs : List (Option Attr)) :
    ∀ r, scanSdAttrs ((attrs.filterMap id).map some) r = scanSdAttrs attrs r := by
  induction attrs with
  | nil => intro r; rfl
  | cons a rest ih =>
    intro r
    cases a with
    | none => simpa using ih r
    | some a =>
      cases hu : a.unescaped with
      | error m => simp only [List.filterMap_cons, id_eq, List.map_cons, scanSdAttrs, hu]
      | ok v =>
        simp only [List.filterMap_cons, id_eq, List.map_cons, scanSdAttrs, hu]
        cases hap : applySdAttr r a.key v with
        | ok r2 => exact ih r2
        | error e => rfl

/-- C10: on any element-open event, the handling only sees the attribute
entries that iterated without error (the dropped entries change nothing),
and a record assembled from an element with a dropped entry keeps the
default value for the affected field while the parse still succeeds. -/
theorem attr_entry_errors_skipped (st : ParseState) (name : String)
    (attrs : List (Option Attr)) :
    step st (.start name ((attrs.filterMap id).map some)) = step st (.start name attrs) ∧
    parse_sd_file [.start "sd" [some ⟨"ts", .ok "5"⟩, none], .endElem "sd", .eof] =
      .ok [{ new_sd_record with ts := 5 }] := by
  refine ⟨?_, rfl⟩
  by_cases h1 : name = "sdl"
  · subst h1
    rw [step_start_sdl, step_start_sdl, scanSdlAttrs_filterMap]
  · by_cases h2 : name = "sd"
    · subst h2
      rw [step_start_sd, step_start_sd, scanSdAttrs_filterMap]
    · rw [step_start_other _ _ _ h1 h2, step_start_other _ _ _ h1 h2]

/-! ### Claim C4: text handling and the hex codec -/

theorem hexVal_isSome_iff (c : Char) : (hexVal c).isSome = isHexDigitC c := by
  simp only [hexVal, isHexDigitC]
  split_ifs with h1 h2 h3 <;> simp_all

theorem hexVal_eq_digitVal (c : Char) (h : isHexDigitC c = true) :
    hexVal c = some (hexDigitVal c) := by
  have hs : (hexVal c).isSome = true := by rw [hexVal_isSome_iff, h]
  cases hv : hexVal c with
  | none => rw [hv] at hs; cases hs
  | some x => simp [hexDigitVal, hv]

theorem hexPairs_valid : ∀ cs : List Char, cs.length % 2 = 0 →
    cs.all isHexDigitC = true → hexPairs cs = some (specHexDecode cs)
  | [], _, _ => rfl
  | [c], hlen, _ => by simp at hlen
  | a :: b :: rest, hlen, h => by
    simp only [List.all_cons, Bool.and_eq_true] at h
    obtain ⟨ha, hb, hrest⟩ := h
    have hlen2 : rest.length % 2 = 0 := by
      simp only [List.length_cons] at hlen
      omega
    simp [hexPairs, hexVal_eq_digitVal a ha, hexVal_eq_digitVal b hb,
      hexPairs_valid rest hlen2 hrest, specHexDecode]

theorem hexPairs_invalid : ∀ cs : List Char, cs.length % 2 = 0 →
    cs.all isHexDigitC = false → hexPairs cs = none
  | [], _, h => by simp at h
  | [c], hlen, _ => by simp at hlen
  | a :: b :: rest, hlen, h => by
    have hlen2 : rest.length % 2 = 0 := by
      simp only [List.length_cons] at hlen
      omega
    cases hva : hexVal a with
    | none => simp [hexPairs, hva]
    | some x =>
      cases hvb : hexVal b with
      | none => simp [hexPairs, hva, hvb]
      | some y =>
        have ha : isHexDigitC a = true := by rw [← hexVal_isSome_iff, hva]; rfl
        have hb : isHexDigitC b = true := by rw [← hexVal_isSome_iff, hvb]; rfl
        have hrest : rest.all isHexDigitC = false := by
          simpa [List.all_cons, ha, hb] using h
        simp [hexPairs, hva, hvb, hexPairs_invalid rest hlen2 hrest]

theorem fromHex_valid (t : String) (h : specValidHex t = true) :
    fromHex t = .ok (specHexDecode t.data) := by
  simp only [specValidHex, Bool.and_eq_true, decide_eq_true_eq] at h
  obtain ⟨hlen, hall⟩ := h
  have hodd : ¬ t.length % 2 = 1 := by omega
  simp [fromHex, hodd, hexPairs_valid t.data hlen hall]

theorem fromHex_invalid (t : String) (h : specValidHex t = false) :
    fromHex t = .error (.invalidEncoding
      (if t.length % 2 = 1 then "Odd number of digits" else "Invalid character")) := by
  by_cases hodd : t.length % 2 = 1
  · simp [fromHex, hodd]
  · have hlen : t.length % 2 = 0 := by omega
    have hall : t.data.all isHexDigitC = false := by
      simpa [specValidHex, hlen] using h
    simp [fromHex, hodd, hexPairs_invalid t.data hlen hall]

/-- C4: handling of a text event, characterised completely. With whitespace
only (empty after trimming) the state — in particular the payload, empty by
default per `new_sd_record` — is untouched and no error arises; with a
trimmed content that is a valid even-length hexadecimal string, the current
record payload becomes the decoded bytes; otherwise the step fails with the
invalid-encoding error, which aborts the whole parse. -/
theorem text_event_contract (st : ParseState) (content : String) :
    step st (.text content) =
      (if rustTrim content = "" then .cont st
       else if specValidHex (rustTrim content) then
         .cont { st with current_sd := { st.current_sd with
           payload := specHexDecode (rustTrim content).data } }
       else .fail (.invalidEncoding
         (if (rustTrim content).length % 2 = 1 then "Odd number of digits"
          else "Invalid character"))) ∧
    new_sd_record.payload = [] := by
  refine ⟨?_, rfl⟩
  by_cases ht : rustTrim content = ""
  · rw [step_text_empty st content ht, if_pos ht]
  · rw [step_text_nonempty st content ht, if_neg ht]
    by_cases hv : specValidHex (rustTrim content) = true
    · rw [fromHex_valid _ hv, if_pos hv]
    · rw [fromHex_invalid _ (by simpa using hv), if_neg hv]

/-! ### Claim C3: the batch is a faithful transposition of the records -/

theorem columnOk_req (nm : String) (dt : DataTypeM) (nb : Bool)
    (g : SdRecord → Prim) (records : List SdRecord)
    (h : ∀ r, typeOk (g r) dt = true) :
    columnOk ⟨nm, dt, nb⟩ (records.map fun r => some (g r)) = true := by
  induction records with
  | nil => rfl
  | cons r rest ih =>
    simp only [List.map_cons, columnOk, List.all_cons, Bool.and_eq_true] at ih ⊢
    exact ⟨h r, ih⟩

theorem columnOk_opt (nm : String) (dt : DataTypeM)
    (g : SdRecord → Option Prim) (records : List SdRecord)
    (h : ∀ r p, g r = some p → typeOk p dt = true) :
    columnOk ⟨nm, dt, true⟩ (records.map g) = true := by
  induction records with
  | nil => rfl
  | cons r rest ih =>
    simp only [List.map_cons, columnOk, List.all_cons, Bool.and_eq_true] at ih ⊢
    refine ⟨?_, ih⟩
    cases hg : g r with
    | none => rfl
    | some p => exact h r p hg

theorem batchColumns_length (records : List SdRecord) :
    (batchColumns records).length = arrowSchema.length := by
  simp [batchColumns, arrowSchema]

theorem batchColumns_sameLength (records : List SdRecord) :
    ((batchColumns records).all
      fun c => c.length = ((batchColumns records).headD []).length) = true := by
  simp [batchColumns]

theorem batchColumns_ok (records : List SdRecord) :
    ((arrowSchema.zip (batchColumns records)).all fun fc => columnOk fc.1 fc.2) = true := by
  simp only [arrowSchema, batchColumns, List.zip_cons_cons, List.zip_nil_right,
    List.all_cons, List.all_nil, Bool.and_eq_true, Bool.and_true]
  refine ⟨?_, ?_, ?_, ?_, ?_, ?_, ?_, ?_, ?_, ?_⟩
  · exact columnOk_req _ _ _ _ records fun r => rfl
  · exact columnOk_req _ _ _ _ records fun r => rfl
  · exact columnOk_req _ _ _ _ records fun r => rfl
  · exact columnOk_req _ _ _ _ records fun r => rfl
  · exact columnOk_req _ _ _ _ records fun r => rfl
  · exact columnOk_req _ _ _ _ records fun r => rfl
  · exact columnOk_req _ _ _ _ records fun r => rfl
  · exact columnOk_opt _ _ _ records fun r p hp => by
      cases hx : r.mioty_qi_1 with
      | none => rw [hx] at hp; cases hp
      | some x => rw [hx] at hp; cases hp; rfl
  · exact columnOk_opt _ _ _ records fun r p hp => by
      cases hx : r.mioty_qi_2 with
      | none => rw [hx] at hp; cases hp
      | some x => rw [hx] at hp; cases hp; rfl
  · exact columnOk_opt _ _ _ records fun r p hp => by
      cases hx : r.mioty_qi_3 with
      | none => rw [hx] at hp; cases hp
      | some x => rw [hx] at hp; cases hp; rfl

theorem build_recordbatch_ok (records : List SdRecord) :
    build_recordbatch records = .ok ⟨arrowSchema, batchColumns records⟩ := by
  unfold build_recordbatch RecordBatch.try_new
  rw [if_pos (batchColumns_length records), if_pos (batchColumns_sameLength records),
    if_pos (batchColumns_ok records)]

theorem build_num_rows (records : List SdRecord) :
    (RecordBatchM.mk arrowSchema (batchColumns records)).num_rows = records.length := by
  simp [RecordBatchM.num_rows, batchColumns]

/-- C3: on a non-empty record list, `build_recordbatch` succeeds with the
fixed ten-field schema, its row count is the number of records, and the
cell of column `i` at row `j` is exactly field `i` of record `j` — for the
three nullable columns as an `Option`, whose `none` (the null slot) is
distinct from `some v` for every representable value `v`. -/
theorem build_recordbatch_contract (records : List SdRecord) (hne : records ≠ []) :
    ∃ b, build_recordbatch records = .ok b ∧
      b.schema = arrowSchema ∧
      b.num_rows = records.length ∧
      ∀ j r, records[j]? = some r →
        b.cell 0 j = some (some (.pstr r.device_id)) ∧
        b.cell 1 j = some (some (.pi64 r.ts)) ∧
        b.cell 2 j = some (some (.pi32 r.rssi)) ∧
        b.cell 3 j = some (some (.pi32 r.snr)) ∧
        b.cell 4 j = some (some (.pstr r.phy)) ∧
        b.cell 5 j = some (some (.pstr r.frame_type)) ∧
        b.cell 6 j = some (some (.pbin r.payload)) ∧
        b.cell 7 j = some (r.mioty_qi_1.map .pf64) ∧
        b.cell 8 j = some (r.mioty_qi_2.map .pi32) ∧
        b.cell 9 j = some (r.mioty_qi_3.map .pi32) := by
  refine ⟨⟨arrowSchema, batchColumns records⟩, build_recordbatch_ok records, rfl,
    build_num_rows records, ?_⟩
  intro j r hj
  refine ⟨?_, ?_, ?_, ?_, ?_, ?_, ?_, ?_, ?_, ?_⟩ <;>
    exact (List.getElem?_map _ records j).trans (by rw [hj]; rfl)

/-- Witness for C3 on the first row of the end-to-end scenario. -/
theorem build_recordbatch_contract_witness :
    [wRecRow0] ≠ [] ∧
    ∃ b, build_recordbatch [wRecRow0] = .ok b ∧
      b.schema = arrowSchema ∧
      b.num_rows = [wRecRow0].length ∧
      ∀ j r, [wRecRow0][j]? = some r →
        b.cell 0 j = some (some (.pstr r.device_id)) ∧
        b.cell 1 j = some (some (.pi64 r.ts)) ∧
        b.cell 2 j = some (some (.pi32 r.rssi)) ∧
        b.cell 3 j = some (some (.pi32 r.snr)) ∧
        b.cell 4 j = some (some (.pstr r.phy)) ∧
        b.cell 5 j = some (some (.pstr r.frame_type)) ∧
        b.cell 6 j = some (some (.pbin r.payload)) ∧
        b.cell 7 j = some (r.mioty_qi_1.map .pf64) ∧
        b.cell 8 j = some (r.mioty_qi_2.map .pi32) ∧
        b.cell 9 j = some (r.mioty_qi_3.map .pi32) :=
  ⟨by simp, build_recordbatch_contract [wRecRow0] (by simp)⟩
